import Mathlib

/-!
Verification development for the incremental-analysis core of
`sinkuu/rust-analyzer` (crates `ra_db` and `ra_assists`).

The Rust source is shallowly embedded: pure functions become Lean
functions, `FnOnce(&mut T)` closures become `T → T` state transformers,
and stack unwinding (Rust panics) becomes an `Except` over an explicit
panic-payload type.  Collaborator crates that are not part of the two
embedded source files (`ra_syntax`, `ra_text_edit`, `ra_fmt`, `salsa`)
are modelled from the specification at their interface boundary; each
such definition carries a doc comment starting with `Modelled from the
spec:`.
-/

-- ra_syntax / ra_db basic value types -------------------------------------

/-- Newtype for file identifiers, mirroring `FileId(pub u32)` of `ra_db::input`. -/
structure FileId where
  id : Nat
deriving DecidableEq

/-- Half-open text range, mirroring `TextRange` of `ra_syntax`; the source
accessor `end()` is named `stop` here because `end` is reserved. -/
structure TextRange where
  start : Nat
  stop : Nat
deriving DecidableEq

/-- Mirrors `ra_db::FileRange`: a file identifier plus a range inside it. -/
structure FileRange where
  file_id : FileId
  range : TextRange
deriving DecidableEq

/-- Modelled from the spec: the parser collaborator (`SourceFile::parse` of
`ra_syntax`, not under the embedded sources) is deterministic: the resulting
tree is a pure function of the file text, so the tree is represented by the
text it was parsed from. -/
structure SourceFile where
  text : String
deriving DecidableEq

/-- Modelled from the spec: the `Parse` value of `ra_syntax`, reduced to the
tree it carries. -/
structure Parse where
  tree : SourceFile
deriving DecidableEq

/-- Modelled from the spec: parsing a file text, deterministic in the text. -/
def SourceFile.parse (text : String) : Parse :=
  ⟨⟨text⟩⟩

-- Cancellation (ra_db/src/lib.rs) -----------------------------------------

/-- The `Canceled` marker raised by a canceled query.  The `cancellation`
module defining it is not among the embedded sources; per the spec it is a
plain marker value carried by the unwinding signal. -/
structure Canceled
deriving DecidableEq

/-- Payload of an unwinding signal: either a `Canceled` marker (the case the
`downcast` in `catch_canceled` recognises) or some other opaque payload. -/
inductive PanicPayload
  | canceled (c : Canceled)
  | other (msg : String)
deriving DecidableEq

/-- Outcome of running code that may raise an unwinding signal: either a
normal value or a propagating payload. -/
abbrev UnwindResult (T : Type) := Except PanicPayload T

/-- Modelled from the spec: `Canceled::throw` raises an unwinding signal
carrying a `Canceled` marker. -/
def Canceled.throw {T : Type} : UnwindResult T :=
  Except.error (PanicPayload.canceled ⟨⟩)

/-- Embeds `CheckCanceled::check_canceled`: if the salsa runtime reports the
current revision canceled, throw `Canceled`; otherwise return normally.  The
salsa flag is passed explicitly as `is_current_revision_canceled`. -/
def check_canceled (is_current_revision_canceled : Bool) : UnwindResult Unit :=
  if is_current_revision_canceled then Canceled.throw else Except.ok ()

/-- Embeds `CheckCanceled::catch_canceled`: run `f` on the database under
`catch_unwind`; a normal result is returned as `Except.ok`, a `Canceled`
payload is converted to `Except.error Canceled`, and any other payload is
re-raised via `resume_unwind`. -/
def catch_canceled {DB T : Type} (db : DB) (f : DB → UnwindResult T) :
    UnwindResult (Except Canceled T) :=
  match f db with
  | Except.ok t => Except.ok (Except.ok t)
  | Except.error p =>
    match p with
    | PanicPayload.canceled c => Except.ok (Except.error c)
    | PanicPayload.other m => Except.error (PanicPayload.other m)

-- Input store and parse query (ra_db/src/lib.rs) ---------------------------

/-- The input facts consulted by the embedded queries: the `file_text` input
of `SourceDatabase`, plus the global revision counter maintained by salsa. -/
structure DbState where
  file_text_map : FileId → String
  revision : Nat

/-- The `file_text` input query of `SourceDatabase`. -/
def DbState.file_text (db : DbState) (file_id : FileId) : String :=
  db.file_text_map file_id

/-- Embeds `parse_query` of `ra_db`: fetch the file text and parse it.  The
profiling call of the source has no observable effect and is dropped. -/
def parse_query (db : DbState) (file_id : FileId) : Parse :=
  SourceFile.parse (db.file_text file_id)

/-- Modelled from the spec: a database handle with the salsa memoizer for the
`parse` query.  A cache entry is `(key, verified-at revision, value)`; an
entry is served only when its stamp equals the current revision. -/
structure MemoDb where
  state : DbState
  parse_cache : List (FileId × Nat × Parse)

/-- Modelled from the spec: writing the `file_text` input overwrites the fact
and unconditionally advances the global revision; cached derived entries are
kept but become stale (validity is checked lazily at read time). -/
def MemoDb.set_file_text (db : MemoDb) (file_id : FileId) (text : String) : MemoDb :=
  { state :=
      { file_text_map := fun fid => if fid = file_id then text else db.state.file_text_map fid,
        revision := db.state.revision + 1 },
    parse_cache := db.parse_cache }

/-- Lookup of a cached parse entry by file id. -/
def lookupCache (cache : List (FileId × Nat × Parse)) (file_id : FileId) :
    Option (Nat × Parse) :=
  match cache with
  | [] => none
  | (fid, r, v) :: rest => if fid = file_id then some (r, v) else lookupCache rest file_id

/-- Modelled from the spec: the memoized `parse` query.  Returns the value,
the database after the read, and whether the cached entry was reused.  The
cached value is served only if its verified-at revision equals the current
revision; otherwise `parse_query` is re-executed and the new value is stored
stamped with the current revision. -/
def MemoDb.parse_memo (db : MemoDb) (file_id : FileId) : Parse × MemoDb × Bool :=
  match lookupCache db.parse_cache file_id with
  | some (r, v) =>
    if r = db.state.revision then (v, db, true)
    else
      let v2 := parse_query db.state file_id
      (v2, { db with parse_cache := (file_id, db.state.revision, v2) :: db.parse_cache }, false)
  | none =>
    let v2 := parse_query db.state file_id
    (v2, { db with parse_cache := (file_id, db.state.revision, v2) :: db.parse_cache }, false)

-- Text edits (ra_text_edit, ra_fmt collaborators) ---------------------------

/-- Modelled from the spec: one atomic text edit of the `ra_text_edit`
collaborator. -/
inductive AtomTextEdit
  | replace (range : TextRange) (text : String)
  | insert (offset : Nat) (text : String)
  | delete (range : TextRange)
deriving DecidableEq

/-- Modelled from the spec: the immutable edit produced by finalizing a
`TextEditBuilder`. -/
structure TextEdit where
  atoms : List AtomTextEdit
deriving DecidableEq

/-- Modelled from the spec: `ra_text_edit::TextEditBuilder` accumulates
atomic edits over the file. -/
structure TextEditBuilder where
  atoms : List AtomTextEdit
deriving DecidableEq

/-- The `Default` instance of `TextEditBuilder`: no accumulated edits. -/
def TextEditBuilder.default : TextEditBuilder :=
  ⟨[]⟩

/-- Record a plain replacement of `range` by `text`. -/
def TextEditBuilder.replace (b : TextEditBuilder) (range : TextRange) (text : String) :
    TextEditBuilder :=
  ⟨b.atoms ++ [AtomTextEdit.replace range text]⟩

/-- Record an insertion of `text` at `offset`. -/
def TextEditBuilder.insert (b : TextEditBuilder) (offset : Nat) (text : String) :
    TextEditBuilder :=
  ⟨b.atoms ++ [AtomTextEdit.insert offset text]⟩

/-- Record a deletion of `range`. -/
def TextEditBuilder.delete (b : TextEditBuilder) (range : TextRange) : TextEditBuilder :=
  ⟨b.atoms ++ [AtomTextEdit.delete range]⟩

/-- Modelled from the spec: `finish` finalizes the accumulated edits into an
immutable `TextEdit`. -/
def TextEditBuilder.finish (b : TextEditBuilder) : TextEdit :=
  ⟨b.atoms⟩

/-- A syntax node, reduced to what `AssistBuilder` consults: its text range
and the whitespace prefix immediately preceding it in the tree. -/
structure SyntaxNode where
  range : TextRange
  leading_ws : Option String
deriving DecidableEq

/-- Modelled from the spec: `ra_fmt::leading_indent` detects the indentation
prefix immediately preceding the node, or nothing when none exists. -/
def leading_indent (node : SyntaxNode) : Option String :=
  node.leading_ws

/-- Splits a character list at newline characters. -/
def splitNl : List Char → List (List Char)
  | [] => [[]]
  | c :: cs =>
    match splitNl cs with
    | [] => [[c]]
    | l :: ls => if c = '\n' then [] :: l :: ls else (c :: l) :: ls

/-- Joins character-list lines with a separator. -/
def joinWith (sep : List Char) : List (List Char) → List Char
  | [] => []
  | [l] => l
  | l :: ls => l ++ sep ++ joinWith sep ls

/-- Modelled from the spec: `ra_fmt::reindent` re-applies the indentation
prefix to every line of the text after the first (lines are joined by a
newline followed by the indent; the first line is left unchanged). -/
def reindent (text : String) (indent : String) : String :=
  ⟨joinWith ('\n' :: indent.data) (splitNl text.data)⟩

-- Assists (ra_assists/src/assist_ctx.rs) -----------------------------------

/-- Mirrors `AssistId(pub &'static str)` of `ra_assists`. -/
structure AssistId where
  id : String
deriving DecidableEq

/-- Mirrors `AssistLabel` of `ra_assists`: a user-visible label plus its id. -/
structure AssistLabel where
  label : String
  id : AssistId
deriving DecidableEq

/-- Mirrors `AssistAction` of `ra_assists`: the finalized edit plus optional
cursor position and target range. -/
structure AssistAction where
  edit : TextEdit
  cursor_position : Option Nat
  target : Option TextRange
deriving DecidableEq

/-- Embeds the `Assist` enum: either unresolved labels only, or labels each
paired with a concrete action. -/
inductive Assist
  | Unresolved (labels : List AssistLabel)
  | Resolved (labels_actions : List (AssistLabel × AssistAction))
deriving DecidableEq

/-- Embeds `AssistBuilder`: a text-edit builder plus the optional cursor
position and target range. -/
structure AssistBuilder where
  edit : TextEditBuilder
  cursor_position : Option Nat
  target : Option TextRange

/-- The `Default` instance of `AssistBuilder`. -/
def AssistBuilder.default : AssistBuilder :=
  { edit := TextEditBuilder.default, cursor_position := none, target := none }

/-- Embeds `AssistBuilder::replace`: record a plain replacement. -/
def AssistBuilder.replace (b : AssistBuilder) (range : TextRange) (replace_with : String) :
    AssistBuilder :=
  { b with edit := b.edit.replace range replace_with }

/-- Embeds `AssistBuilder::replace_node_and_indent`: when a leading indent is
detected for the node, reindent the replacement text with it; then record a
plain replacement of the node's range. -/
def AssistBuilder.replace_node_and_indent (b : AssistBuilder) (node : SyntaxNode)
    (replace_with : String) : AssistBuilder :=
  let replace_with2 :=
    match leading_indent node with
    | some indent => reindent replace_with indent
    | none => replace_with
  b.replace node.range replace_with2

/-- Embeds `AssistBuilder::delete`. -/
def AssistBuilder.delete (b : AssistBuilder) (range : TextRange) : AssistBuilder :=
  { b with edit := b.edit.delete range }

/-- Embeds `AssistBuilder::insert`. -/
def AssistBuilder.insert (b : AssistBuilder) (offset : Nat) (text : String) : AssistBuilder :=
  { b with edit := b.edit.insert offset text }

/-- Embeds `AssistBuilder::set_cursor`: overwrite the cursor position. -/
def AssistBuilder.set_cursor (b : AssistBuilder) (offset : Nat) : AssistBuilder :=
  { b with cursor_position := some offset }

/-- Embeds `AssistBuilder::target` (named `setTarget` because the structure
field accessor already uses the source name): overwrite the target range. -/
def AssistBuilder.setTarget (b : AssistBuilder) (target : TextRange) : AssistBuilder :=
  { b with target := some target }

/-- Embeds `AssistBuilder::build`: finalize the edit builder and package the
action. -/
def AssistBuilder.build (b : AssistBuilder) : AssistAction :=
  { edit := b.edit.finish,
    cursor_position := b.cursor_position,
    target := b.target }

/-- Embeds `AssistCtx`: database handle, target file range, the parsed source
file, the mode flag, and the accumulated assist. -/
structure AssistCtx where
  db : DbState
  frange : FileRange
  source_file : SourceFile
  should_compute_edit : Bool
  assist : Assist

/-- Embeds `AssistCtx::with_ctx`: parse the target file, pick the empty
assist variant according to `should_compute_edit`, and run `f` on the
freshly built context. -/
def AssistCtx.with_ctx {T : Type} (db : DbState) (frange : FileRange)
    (should_compute_edit : Bool) (f : AssistCtx → T) : T :=
  f { db := db, frange := frange,
      source_file := (parse_query db frange.file_id).tree,
      should_compute_edit := should_compute_edit,
      assist := if should_compute_edit then Assist.Resolved [] else Assist.Unresolved [] }

/-- Embeds `AssistCtx::add_action`: in the `Unresolved` variant push the
label only; in the `Resolved` variant run the build closure on a fresh
default `AssistBuilder`, finalize it, and push the pair. -/
def AssistCtx.add_action (ctx : AssistCtx) (id : AssistId) (label : String)
    (f : AssistBuilder → AssistBuilder) : AssistCtx :=
  let lbl : AssistLabel := { label := label, id := id }
  match ctx.assist with
  | Assist.Unresolved labels =>
    { ctx with assist := Assist.Unresolved (labels ++ [lbl]) }
  | Assist.Resolved labels_actions =>
    { ctx with
      assist := Assist.Resolved (labels_actions ++ [(lbl, (f AssistBuilder.default).build)]) }

/-- Embeds `AssistCtx::build`: always wraps the accumulated assist in `Some`. -/
def AssistCtx.build (ctx : AssistCtx) : Option Assist :=
  some ctx.assist

/-- One assist registration: the arguments of one `add_action` call. -/
structure Registration where
  id : AssistId
  label : String
  build_fn : AssistBuilder → AssistBuilder

/-- Run a sequence of `add_action` calls on a context. -/
def AssistCtx.runActions (ctx : AssistCtx) (regs : List Registration) : AssistCtx :=
  regs.foldl (fun c r => c.add_action r.id r.label r.build_fn) ctx

/-- The label of one registration. -/
def Registration.toLabel (r : Registration) : AssistLabel :=
  { label := r.label, id := r.id }

/-- The labels held by an assist, in order, with the action components
dropped in the resolved case. -/
def Assist.labelList : Assist → List AssistLabel
  | Assist.Unresolved labels => labels
  | Assist.Resolved labels_actions => labels_actions.map Prod.fst

/-- The action identifiers held by an assist, in order. -/
def Assist.ids (a : Assist) : List AssistId :=
  a.labelList.map AssistLabel.id

/-- The resolved pairs held by an assist (empty in the unresolved case). -/
def Assist.resolvedList : Assist → List (AssistLabel × AssistAction)
  | Assist.Unresolved _ => []
  | Assist.Resolved labels_actions => labels_actions

/-- Whether the assist is the `Resolved` variant. -/
def Assist.isResolved : Assist → Bool
  | Assist.Unresolved _ => false
  | Assist.Resolved _ => true

-- Helper lemmas -------------------------------------------------------------

/-- Running registrations on a context holding an `Unresolved` assist keeps
the variant and appends exactly the registered labels. -/
theorem runActions_unresolved (regs : List Registration) :
    ∀ (ctx : AssistCtx) (ls : List AssistLabel), ctx.assist = Assist.Unresolved ls →
      (ctx.runActions regs).assist
        = Assist.Unresolved (ls ++ regs.map Registration.toLabel) := by
  induction regs with
  | nil =>
    intro ctx ls h
    simpa [AssistCtx.runActions] using h
  | cons r rs ih =>
    intro ctx ls h
    have hstep : (ctx.add_action r.id r.label r.build_fn).assist
        = Assist.Unresolved (ls ++ [r.toLabel]) := by
      simp [AssistCtx.add_action, h, Registration.toLabel]
    have : (ctx.runActions (r :: rs))
        = (ctx.add_action r.id r.label r.build_fn).runActions rs := by
      simp [AssistCtx.runActions]
    rw [this, ih _ _ hstep]
    simp

/-- Running registrations on a context holding a `Resolved` assist keeps the
variant and appends, for each registration, its label paired with the action
obtained by running its build closure on a fresh default builder. -/
theorem runActions_resolved (regs : List Registration) :
    ∀ (ctx : AssistCtx) (ps : List (AssistLabel × AssistAction)),
      ctx.assist = Assist.Resolved ps →
      (ctx.runActions regs).assist
        = Assist.Resolved
            (ps ++ regs.map (fun r =>
              (r.toLabel, (r.build_fn AssistBuilder.default).build))) := by
  induction regs with
  | nil =>
    intro ctx ps h
    simpa [AssistCtx.runActions] using h
  | cons r rs ih =>
    intro ctx ps h
    have hstep : (ctx.add_action r.id r.label r.build_fn).assist
        = Assist.Resolved (ps ++ [(r.toLabel, (r.build_fn AssistBuilder.default).build)]) := by
      simp [AssistCtx.add_action, h, Registration.toLabel]
    have : (ctx.runActions (r :: rs))
        = (ctx.add_action r.id r.label r.build_fn).runActions rs := by
      simp [AssistCtx.runActions]
    rw [this, ih _ _ hstep]
    simp

-- Claim theorems ------------------------------------------------------------

/-- C1: for a fixed database state and file range, running the same sequence
of `add_action` registrations through `with_ctx` in enumerate mode and in
compute mode yields the same labels and the same action identifiers, in the
same order; the two results differ only in the variant carrying the edits. -/
theorem enumerate_compute_ids_eq (db : DbState) (frange : FileRange)
    (regs : List Registration) :
    ((AssistCtx.with_ctx db frange false (fun c => c.runActions regs)).assist).labelList
      = ((AssistCtx.with_ctx db frange true (fun c => c.runActions regs)).assist).labelList
    ∧ ((AssistCtx.with_ctx db frange false (fun c => c.runActions regs)).assist).ids
      = ((AssistCtx.with_ctx db frange true (fun c => c.runActions regs)).assist).ids := by
  have hE := runActions_unresolved regs
    { db := db, frange := frange,
      source_file := (parse_query db frange.file_id).tree,
      should_compute_edit := false, assist := Assist.Unresolved [] } [] rfl
  have hC := runActions_resolved regs
    { db := db, frange := frange,
      source_file := (parse_query db frange.file_id).tree,
      should_compute_edit := true, assist := Assist.Resolved [] } [] rfl
  constructor
  · rw [show (AssistCtx.with_ctx db frange false (fun c => c.runActions regs)).assist
        = Assist.Unresolved (List.map Registration.toLabel regs) by simpa [AssistCtx.with_ctx] using hE,
      show (AssistCtx.with_ctx db frange true (fun c => c.runActions regs)).assist
        = Assist.Resolved (regs.map (fun r =>
            (r.toLabel, (r.build_fn AssistBuilder.default).build))) by
          simpa [AssistCtx.with_ctx] using hC]
    simp [Assist.labelList]
  · rw [Assist.ids, Assist.ids,
      show (AssistCtx.with_ctx db frange false (fun c => c.runActions regs)).assist
        = Assist.Unresolved (List.map Registration.toLabel regs) by simpa [AssistCtx.with_ctx] using hE,
      show (AssistCtx.with_ctx db frange true (fun c => c.runActions regs)).assist
        = Assist.Resolved (regs.map (fun r =>
            (r.toLabel, (r.build_fn AssistBuilder.default).build))) by
          simpa [AssistCtx.with_ctx] using hC]
    simp [Assist.labelList]

/-- C2: on a context built in enumerate mode the result of `add_action` does
not depend on the build closure (it is never invoked) and only the label is
pushed; on a context built in compute mode `add_action` pushes the label
paired with the action obtained by applying the closure exactly once to a
fresh default builder and finalizing it. -/
theorem add_action_mode_spec (db : DbState) (frange : FileRange)
    (regs : List Registration) (id : AssistId) (label : String)
    (f g : AssistBuilder → AssistBuilder) :
    ((AssistCtx.with_ctx db frange false (fun c => c.runActions regs)).add_action id label f
      = (AssistCtx.with_ctx db frange false (fun c => c.runActions regs)).add_action id label g)
    ∧ (((AssistCtx.with_ctx db frange false (fun c => c.runActions regs)).add_action id label f).assist
      = Assist.Unresolved
          ((AssistCtx.with_ctx db frange false (fun c => c.runActions regs)).assist.labelList
            ++ [{ label := label, id := id }]))
    ∧ (((AssistCtx.with_ctx db frange true (fun c => c.runActions regs)).add_action id label f).assist
      = Assist.Resolved
          ((AssistCtx.with_ctx db frange true (fun c => c.runActions regs)).assist.resolvedList
            ++ [({ label := label, id := id }, AssistBuilder.build (f AssistBuilder.default))])) := by
  have hE := runActions_unresolved regs
    { db := db, frange := frange,
      source_file := (parse_query db frange.file_id).tree,
      should_compute_edit := false, assist := Assist.Unresolved [] } [] rfl
  have hC := runActions_resolved regs
    { db := db, frange := frange,
      source_file := (parse_query db frange.file_id).tree,
      should_compute_edit := true, assist := Assist.Resolved [] } [] rfl
  have hE2 : (AssistCtx.with_ctx db frange false (fun c => c.runActions regs)).assist
      = Assist.Unresolved (List.map Registration.toLabel regs) := by
    simpa [AssistCtx.with_ctx] using hE
  have hC2 : (AssistCtx.with_ctx db frange true (fun c => c.runActions regs)).assist
      = Assist.Resolved (regs.map (fun r =>
          (r.toLabel, (r.build_fn AssistBuilder.default).build))) := by
    simpa [AssistCtx.with_ctx] using hC
  refine ⟨?_, ?_, ?_⟩
  · simp [AssistCtx.add_action, hE2]
  · simp [AssistCtx.add_action, hE2, Assist.labelList]
  · simp [AssistCtx.add_action, hC2, Assist.resolvedList]

/-- C6: the assist accumulated by a context built through `with_ctx` holds a
single variant determined by the mode flag, whatever sequence of
`add_action` calls is made: the variant is `Resolved` exactly when
`should_compute_edit` was true at construction. -/
theorem assist_single_variant (db : DbState) (frange : FileRange)
    (should_compute_edit : Bool) (regs : List Registration) :
    ((AssistCtx.with_ctx db frange should_compute_edit
        (fun c => c.runActions regs)).assist).isResolved = should_compute_edit := by
  cases should_compute_edit with
  | false =>
    have hE := runActions_unresolved regs
      { db := db, frange := frange,
        source_file := (parse_query db frange.file_id).tree,
        should_compute_edit := false, assist := Assist.Unresolved [] } [] rfl
    have hE2 : (AssistCtx.with_ctx db frange false (fun c => c.runActions regs)).assist
        = Assist.Unresolved (List.map Registration.toLabel regs) := by
      simpa [AssistCtx.with_ctx] using hE
    rw [hE2]
    rfl
  | true =>
    have hC := runActions_resolved regs
      { db := db, frange := frange,
        source_file := (parse_query db frange.file_id).tree,
        should_compute_edit := true, assist := Assist.Resolved [] } [] rfl
    have hC2 : (AssistCtx.with_ctx db frange true (fun c => c.runActions regs)).assist
        = Assist.Resolved (regs.map (fun r =>
            (r.toLabel, (r.build_fn AssistBuilder.default).build))) := by
      simpa [AssistCtx.with_ctx] using hC
    rw [hC2]
    rfl

/-- C9: `AssistCtx.build` always returns `some` of the accumulated assist,
never `none`; in particular a context on which no `add_action` call was made
yields `some` of the empty list of the variant chosen by the mode flag. -/
theorem assist_build_always_some :
    (∀ ctx : AssistCtx, ctx.build = some ctx.assist)
    ∧ (∀ ctx : AssistCtx, ctx.build ≠ none)
    ∧ (∀ (db : DbState) (frange : FileRange),
        AssistCtx.with_ctx db frange false (fun c => c.build)
          = some (Assist.Unresolved [])
        ∧ AssistCtx.with_ctx db frange true (fun c => c.build)
          = some (Assist.Resolved [])) := by
  refine ⟨fun ctx => rfl, fun ctx h => by simp [AssistCtx.build] at h, fun db frange => ⟨rfl, rfl⟩⟩

/-- C3: `check_canceled` returns normally exactly when the revision is not
flagged canceled and raises a `Canceled`-carrying unwinding signal exactly
when it is; `catch_canceled` converts a normal completion into `ok` of the
value and a `Canceled` payload into `ok` of `Except.error Canceled`, and a
`Canceled` signal never escapes `catch_canceled` as a raw fault. -/
theorem cancellation_check_catch :
    (∀ flag : Bool, check_canceled flag
        = if flag then Except.error (PanicPayload.canceled ⟨⟩) else Except.ok ())
    ∧ (∀ (DB T : Type) (db : DB) (f : DB → UnwindResult T) (t : T),
        f db = Except.ok t → catch_canceled db f = Except.ok (Except.ok t))
    ∧ (∀ (DB T : Type) (db : DB) (f : DB → UnwindResult T) (c : Canceled),
        f db = Except.error (PanicPayload.canceled c)
          → catch_canceled db f = Except.ok (Except.error c))
    ∧ (∀ (DB T : Type) (db : DB) (f : DB → UnwindResult T) (c : Canceled),
        catch_canceled db f ≠ Except.error (PanicPayload.canceled c)) := by
  refine ⟨?_, ?_, ?_, ?_⟩
  · intro flag
    cases flag <;> rfl
  · intro DB T db f t h
    simp [catch_canceled, h]
  · intro DB T db f c h
    simp [catch_canceled, h]
  · intro DB T db f c h
    unfold catch_canceled at h
    cases hf : f db with
    | ok t => rw [hf] at h; exact Except.noConfusion h
    | error p =>
      rw [hf] at h
      cases p with
      | canceled c2 => exact Except.noConfusion h
      | other m =>
        simp only [] at h
        have := Except.error.inj h
        exact PanicPayload.noConfusion this

/-- Witness for C3 at concrete closures: a normal completion and a canceled
completion on the unit database. -/
theorem cancellation_check_catch_witness :
    catch_canceled () (fun _ : Unit => (Except.ok 3 : UnwindResult Nat))
      = Except.ok (Except.ok 3)
    ∧ catch_canceled ()
        (fun _ : Unit => (Except.error (PanicPayload.canceled ⟨⟩) : UnwindResult Nat))
      = Except.ok (Except.error ⟨⟩) :=
  ⟨cancellation_check_catch.2.1 Unit Nat ()
      (fun _ : Unit => (Except.ok 3 : UnwindResult Nat)) 3 rfl,
   cancellation_check_catch.2.2.1 Unit Nat ()
      (fun _ : Unit => (Except.error (PanicPayload.canceled ⟨⟩) : UnwindResult Nat)) ⟨⟩ rfl⟩

/-- C8: when the closure raises an unwinding signal whose payload is not a
`Canceled` value, `catch_canceled` re-raises that payload unchanged rather
than converting it into a result. -/
theorem catch_canceled_reraises_non_canceled (DB T : Type) (db : DB)
    (f : DB → UnwindResult T) (p : PanicPayload)
    (hnc : ∀ c : Canceled, p ≠ PanicPayload.canceled c)
    (hf : f db = Except.error p) :
    catch_canceled db f = Except.error p := by
  unfold catch_canceled
  rw [hf]
  cases p with
  | canceled c => exact absurd rfl (hnc c)
  | other m => rfl

/-- Witness for C8 at a concrete non-`Canceled` payload. -/
theorem catch_canceled_reraises_non_canceled_witness :
    catch_canceled ()
        (fun _ : Unit => (Except.error (PanicPayload.other "boom") : UnwindResult Nat))
      = Except.error (PanicPayload.other "boom") :=
  catch_canceled_reraises_non_canceled Unit Nat ()
    (fun _ : Unit => (Except.error (PanicPayload.other "boom") : UnwindResult Nat))
    (PanicPayload.other "boom")
    (fun c h => PanicPayload.noConfusion h) rfl

-- End-to-end parse scenario -------------------------------------------------

/-- Initial database for the end-to-end parse scenario: no text set, revision
zero, empty parse cache. -/
def scenario_db0 : MemoDb :=
  { state := { file_text_map := fun _ => "", revision := 0 }, parse_cache := [] }

/-- Database after setting file 1's text to `"fn f() {}"`. -/
def scenario_db1 : MemoDb :=
  scenario_db0.set_file_text ⟨1⟩ "fn f() \x7b\x7d"

/-- First `parse` read of file 1. -/
def scenario_r1 : Parse × MemoDb × Bool :=
  scenario_db1.parse_memo ⟨1⟩

/-- Database after setting file 1's text to `"fn g() {}"`. -/
def scenario_db2 : MemoDb :=
  scenario_r1.2.1.set_file_text ⟨1⟩ "fn g() \x7b\x7d"

/-- Second `parse` read of file 1. -/
def scenario_r2 : Parse × MemoDb × Bool :=
  scenario_db2.parse_memo ⟨1⟩

/-- C4: `parse_query` always parses the current `file_text`; in the
end-to-end scenario (set text to `"fn f() {}"`, read `parse`, set the same
file to `"fn g() {}"`, read `parse` again) the second result is the parse of
the new text, differs from the first, and the first cached entry is not
reused. -/
theorem parse_tracks_file_text :
    (∀ (db : DbState) (file_id : FileId),
        parse_query db file_id = SourceFile.parse (db.file_text file_id))
    ∧ scenario_r1.1 = SourceFile.parse "fn f() \x7b\x7d"
    ∧ scenario_r2.1 = SourceFile.parse "fn g() \x7b\x7d"
    ∧ scenario_r2.1 ≠ scenario_r1.1
    ∧ scenario_r2.2.2 = false := by
  refine ⟨fun db file_id => rfl, ?_, ?_, ?_, ?_⟩ <;> decide

-- Indentation-preserving replacement ----------------------------------------

/-- C5: when a leading indent is detected for the node,
`replace_node_and_indent` records a plain replacement of the node's range by
the reindented text; reindenting the two-line text `"a\nb"` with the indent
`"    "` yields `"a\n    b"`. -/
theorem replace_node_and_indent_indent_spec (b : AssistBuilder) (node : SyntaxNode)
    (text indent : String) (h : leading_indent node = some indent) :
    b.replace_node_and_indent node text = b.replace node.range (reindent text indent)
    ∧ reindent "a\nb" "    " = "a\n    b" := by
  constructor
  · simp [AssistBuilder.replace_node_and_indent, h]
  · decide

/-- Witness for C5 at a concrete node whose leading indent is four spaces. -/
theorem replace_node_and_indent_indent_spec_witness :
    AssistBuilder.replace_node_and_indent AssistBuilder.default ⟨⟨0, 4⟩, some "    "⟩ "a\nb"
      = AssistBuilder.replace AssistBuilder.default ⟨0, 4⟩ (reindent "a\nb" "    ")
    ∧ reindent "a\nb" "    " = "a\n    b" :=
  replace_node_and_indent_indent_spec AssistBuilder.default ⟨⟨0, 4⟩, some "    "⟩
    "a\nb" "    " rfl

/-- C10: when no leading indent is detected, `replace_node_and_indent`
records the replacement text completely unchanged; and in every case the
range it replaces is exactly the node's own range. -/
theorem replace_node_and_indent_no_indent_spec (b : AssistBuilder) (node : SyntaxNode)
    (text : String) (h : leading_indent node = none) :
    b.replace_node_and_indent node text = b.replace node.range text
    ∧ ∀ (b2 : AssistBuilder) (node2 : SyntaxNode) (text2 : String),
        ∃ t : String, b2.replace_node_and_indent node2 text2 = b2.replace node2.range t := by
  constructor
  · simp [AssistBuilder.replace_node_and_indent, h]
  · intro b2 node2 text2
    exact ⟨match leading_indent node2 with
           | some indent => reindent text2 indent
           | none => text2, rfl⟩

/-- Witness for C10 at a concrete node with no leading indentation. -/
theorem replace_node_and_indent_no_indent_spec_witness :
    AssistBuilder.replace_node_and_indent AssistBuilder.default ⟨⟨0, 4⟩, none⟩ "a\nb"
      = AssistBuilder.replace AssistBuilder.default ⟨0, 4⟩ "a\nb"
    ∧ ∀ (b2 : AssistBuilder) (node2 : SyntaxNode) (text2 : String),
        ∃ t : String, b2.replace_node_and_indent node2 text2 = b2.replace node2.range t :=
  replace_node_and_indent_no_indent_spec AssistBuilder.default ⟨⟨0, 4⟩, none⟩ "a\nb" rfl

-- Cursor and target overwrite semantics -------------------------------------

/-- Folding a sequence of `set_cursor` calls leaves the cursor position of
the last call. -/
theorem foldl_set_cursor_last :
    ∀ (offs : List Nat) (b : AssistBuilder) (h : offs ≠ []),
      (offs.foldl AssistBuilder.set_cursor b).cursor_position = some (offs.getLast h) := by
  intro offs
  induction offs with
  | nil => intro b h; exact absurd rfl h
  | cons o os ih =>
    intro b h
    cases os with
    | nil => rfl
    | cons o2 os2 =>
      have hne : (o2 :: os2) ≠ ([] : List Nat) := by simp
      have := ih (b.set_cursor o) hne
      simpa [List.getLast] using this

/-- Folding a sequence of target-setting calls leaves the target range of
the last call. -/
theorem foldl_setTarget_last :
    ∀ (ts : List TextRange) (b : AssistBuilder) (h : ts ≠ []),
      (ts.foldl AssistBuilder.setTarget b).target = some (ts.getLast h) := by
  intro ts
  induction ts with
  | nil => intro b h; exact absurd rfl h
  | cons t ts2 ih =>
    intro b h
    cases ts2 with
    | nil => rfl
    | cons t2 ts3 =>
      have hne : (t2 :: ts3) ≠ ([] : List TextRange) := by simp
      have := ih (b.setTarget t) hne
      simpa [List.getLast] using this

/-- C7: the builder holds at most one cursor offset and one target range,
and for every nonempty sequence of `set_cursor` (resp. target-setting) calls
the finalized action carries exactly the value of the last call: later
writes overwrite earlier ones. -/
theorem cursor_target_last_write_wins (b : AssistBuilder) (offs : List Nat)
    (ts : List TextRange) (h1 : offs ≠ []) (h2 : ts ≠ []) :
    ((offs.foldl AssistBuilder.set_cursor b).build).cursor_position = some (offs.getLast h1)
    ∧ ((ts.foldl AssistBuilder.setTarget b).build).target = some (ts.getLast h2) := by
  constructor
  · have := foldl_set_cursor_last offs b h1
    simpa [AssistBuilder.build] using this
  · have := foldl_setTarget_last ts b h2
    simpa [AssistBuilder.build] using this

/-- Witness for C7: two cursor writes keep the second offset, two target
writes keep the second range. -/
theorem cursor_target_last_write_wins_witness :
    ((([1, 2] : List Nat).foldl AssistBuilder.set_cursor AssistBuilder.default).build).cursor_position
      = some 2
    ∧ ((([⟨0, 1⟩, ⟨2, 3⟩] : List TextRange).foldl AssistBuilder.setTarget AssistBuilder.default).build).target
      = some ⟨2, 3⟩ := by
  have h := cursor_target_last_write_wins AssistBuilder.default [1, 2] [⟨0, 1⟩, ⟨2, 3⟩]
    (by simp) (by simp)
  exact ⟨h.1, h.2⟩
